import Mathlib

/-!
Verification of the Mbed Cloud JavaScript SDK notification coordinator
(`src/connect/connectApi.ts`) against its natural-language specification.

The embedding below translates the stateful TypeScript class `ConnectApi`
into pure Lean functions.  Mutable instance state (`_asyncFns`, `_notifyFns`,
`handleNotifications`, `_pollRequest`, the pending `setTimeout` of the pull
loop) becomes explicit state records; callback invocations and event-emitter
emissions become entries of an explicit event trace; HTTP transport calls
issued by the class become entries of an explicit transport-call trace.
JavaScript objects used as string-keyed maps become association lists.
-/

set_option autoImplicit false

namespace MbedConnect

/-- A JavaScript value as it appears in the dispatcher: `null`, a string,
a number, or a parsed JSON structure (kept abstract as its source text). -/
inductive JSValue where
  | null
  | str (s : String)
  | num (n : Nat)
  | json (s : String)
deriving DecidableEq, Repr

/-- Modelled from the spec: the `SDKError` class (`common/sdkError`) is not
under `src/`; per the spec an error surfaced to a correlated caller carries
the remote error message/code and the HTTP status (`new SDKError(message,
innerError, details, code)` is called in `notify` with
`(response.error || response.status, null, null, response.status)`). -/
structure SDKErrorModel where
  message : JSValue
  code : Nat
deriving DecidableEq, Repr

/-! ### Base64 payload decoding

Modelled from the spec: `decodeBase64` (`common/functions`) is not under
`src/`.  §4.3 of the spec gives the decode rule: base64-decode the payload,
then "numeric text → number, JSON content-type → parsed structure,
otherwise → decoded UTF-8 string".  The byte-to-character step below covers
the ASCII range, and the JSON content type is recognised as the literal
`application/json`; no claim depends on these internals. -/

/-- Value of one base64 alphabet character; `none` for padding/garbage. -/
def base64CharVal (c : Char) : Option Nat :=
  if 'A' ≤ c ∧ c ≤ 'Z' then some (c.toNat - 65)
  else if 'a' ≤ c ∧ c ≤ 'z' then some (c.toNat - 97 + 26)
  else if '0' ≤ c ∧ c ≤ '9' then some (c.toNat - 48 + 52)
  else if c = '+' then some 62
  else if c = '/' then some 63
  else none

/-- Bit-accumulating base64 decode of a character list into bytes. -/
def base64Bytes : List Char → Nat → Nat → List Nat
  | [], _, _ => []
  | c :: rest, bits, nbits =>
    match base64CharVal c with
    | none => base64Bytes rest bits nbits
    | some v =>
      let bits := bits * 64 + v
      let nbits := nbits + 6
      if 8 ≤ nbits then
        (bits / 2 ^ (nbits - 8)) % 256 :: base64Bytes rest (bits % 2 ^ (nbits - 8)) (nbits - 8)
      else
        base64Bytes rest bits nbits

/-- Bytes to a string, one character per byte (ASCII range). -/
def bytesToString (bs : List Nat) : String :=
  String.mk (bs.map Char.ofNat)

/-- Whether a content type selects the JSON decode strategy. -/
def ctIsJson (ct : Option String) : Bool :=
  ct == some "application/json"

/-- Modelled from the spec: `decodeBase64(payload, ct)` from
`common/functions` — base64-decode, then pick number / JSON / string by the
§4.3 rule. -/
def decodeBase64 (payload : String) (ct : Option String) : JSValue :=
  let s := bytesToString (base64Bytes payload.data 0 0)
  if s ≠ "" ∧ s.data.all Char.isDigit then
    JSValue.num (s.data.foldl (fun acc c => acc * 10 + (c.toNat - 48)) 0)
  else if ctIsJson ct then JSValue.json s
  else JSValue.str s

/-- The body expression `notification.payload ? decodeBase64(notification.payload, ct) : null`.
A `some ""` payload is falsy in JavaScript and also yields `null`. -/
def bodyOf (payload : Option String) (ct : Option String) : JSValue :=
  match payload with
  | some p => if p = "" then JSValue.null else decodeBase64 p ct
  | none => JSValue.null

/-! ### String-keyed callback maps

`_asyncFns` and `_notifyFns` are plain JavaScript objects used as maps from
strings to functions.  Callbacks are inert and identified by a `Nat` tag;
their invocations are recorded in the event trace.  Keys of a JavaScript
object are unique, which `insertA` preserves. -/

/-- A JavaScript object used as a string-keyed map of callbacks. -/
abbrev FnMap := List (String × Nat)

/-- Property lookup: `obj[key]`, `undefined` becomes `none`. -/
def lookupA : FnMap → String → Option Nat
  | [], _ => none
  | (k, v) :: rest, key => if k = key then some v else lookupA rest key

/-- Property deletion: `delete obj[key]`. -/
def eraseA : FnMap → String → FnMap
  | [], _ => []
  | (k, v) :: rest, key => if k = key then eraseA rest key else (k, v) :: eraseA rest key

/-- Property assignment: `obj[key] = v` (replaces an existing entry). -/
def insertA : FnMap → String → Nat → FnMap
  | [], key, v => [(key, v)]
  | (k, w) :: rest, key, v => if k = key then (key, v) :: rest else (k, w) :: insertA rest key v

/-! ### Notification batch data model (`NotificationObject` of `connect/types`) -/

/-- One element of `data.notifications`: `{ep, path, payload?, ct?}`. -/
structure DeviceNotification where
  ep : String
  path : String
  payload : Option String := none
  ct : Option String := none
deriving DecidableEq, Repr

/-- One element of `data.registrations` / `data["reg-updates"]` (raw device
event record; only the endpoint name matters to the dispatcher). -/
structure RawDeviceEvent where
  ep : String
deriving DecidableEq, Repr

/-- The domain device event emitted for (re)registrations. -/
structure DeviceEvent where
  id : String
deriving DecidableEq, Repr

namespace DeviceEventAdapter

/-- Modelled from the spec: `DeviceEventAdapter.map`
(`connect/models/deviceEventAdapter`) is not under `src/`; §4.3 says the
raw device-event record is mapped by field renaming only. -/
def map (device : RawDeviceEvent) : DeviceEvent :=
  { id := device.ep }

end DeviceEventAdapter

/-- One element of `data["async-responses"]`:
`{id, status, error?, payload?, ct?}`. -/
structure AsyncResponse where
  id : String
  status : Nat
  error : Option String := none
  payload : Option String := none
  ct : Option String := none
deriving DecidableEq, Repr

/-- The decoded notification batch passed to `ConnectApi.notify`.  Every
field is optional; in JavaScript a present-but-empty array is truthy and
its `forEach` does nothing, so `some []` and `none` behave identically. -/
structure NotificationObject where
  notifications : Option (List DeviceNotification) := none
  registrations : Option (List RawDeviceEvent) := none
  regUpdates : Option (List RawDeviceEvent) := none
  deRegistrations : Option (List String) := none
  registrationsExpired : Option (List String) := none
  asyncResponses : Option (List AsyncResponse) := none
deriving DecidableEq, Repr

/-- Reading an optional sequence field, `o.getD []`: missing and empty sequence fields dispatch identically. -/
def optList {α : Type} (o : Option (List α)) : List α := o.getD []

/-! ### Observable effects of the coordinator -/

/-- One observable side effect: a callback invocation, an event-emitter
emission, or a user `done` callback of `startNotifications` /
`stopNotifications`. -/
inductive Event where
  /-- Invocation `fn(body)` of the `_notifyFns` entry stored under `key`. -/
  | notifyFnCall (key : String) (cb : Nat) (body : JSValue)
  /-- Emission `this.emit(EVENT_NOTIFICATION, {id, path, payload})`. -/
  | notificationEvent (id : String) (path : String) (payload : JSValue)
  /-- Emission `this.emit(EVENT_REGISTRATION, DeviceEventAdapter.map(device, this))`. -/
  | registrationEvent (device : DeviceEvent)
  /-- Emission `this.emit(EVENT_REREGISTRATION, DeviceEventAdapter.map(device, this))`. -/
  | reregistrationEvent (device : DeviceEvent)
  /-- Emission `this.emit(EVENT_DEREGISTRATION, deviceId)`. -/
  | deregistrationEvent (deviceId : String)
  /-- Emission `this.emit(EVENT_EXPIRED, deviceId)`. -/
  | expiredEvent (deviceId : String)
  /-- Invocation `fn(error, data)` of the `_asyncFns` entry stored under `id`. -/
  | asyncFnCall (id : String) (cb : Nat) (error : Option SDKErrorModel) (data : JSValue)
  /-- Settlement `done(error, null)` of `startNotifications` reaching the user. -/
  | startDone (error : Option SDKErrorModel)
  /-- Settlement `done(error, null)` of `stopNotifications` reaching the user. -/
  | stopDone (error : Option SDKErrorModel)
deriving DecidableEq, Repr

/-- The message expression `response.error || response.status`: a present non-empty error string
wins, otherwise the (truthy) status number. -/
def errMessageOf (error : Option String) (status : Nat) : JSValue :=
  match error with
  | some e => if e = "" then JSValue.num status else JSValue.str e
  | none => JSValue.num status

/-- The single callback invocation performed for a matched async response:
status ≥ 400 invokes `fn(new SDKError(response.error || response.status,
null, null, response.status), null)`, otherwise `fn(null, body)`. -/
def asyncEventFor (cb : Nat) (r : AsyncResponse) : Event :=
  if 400 ≤ r.status then
    Event.asyncFnCall r.id cb (some { message := errMessageOf r.error r.status, code := r.status }) JSValue.null
  else
    Event.asyncFnCall r.id cb none (bodyOf r.payload r.ct)

/-- The `data["async-responses"].forEach(...)` loop of `notify`: look up
`_asyncFns[response.id]`; if present invoke it and delete the entry,
otherwise fall through silently. -/
def processAsync (fns : FnMap) : List AsyncResponse → FnMap × List Event
  | [] => (fns, [])
  | r :: rest =>
    match lookupA fns r.id with
    | some cb =>
      let p := processAsync (eraseA fns r.id) rest
      (p.1, asyncEventFor cb r :: p.2)
    | none => processAsync fns rest

/-- The effects of one `data.notifications` element: call
`_notifyFns[ep + path]` when present, then always emit the
`notification` event. -/
def notifEventsFor (fns : FnMap) (n : DeviceNotification) : List Event :=
  (match lookupA fns (n.ep ++ n.path) with
   | some cb => [Event.notifyFnCall (n.ep ++ n.path) cb (bodyOf n.payload n.ct)]
   | none => []) ++ [Event.notificationEvent n.ep n.path (bodyOf n.payload n.ct)]

/-- The `data.notifications.forEach(...)` loop of `notify`. -/
def processNotifs (fns : FnMap) : List DeviceNotification → List Event
  | [] => []
  | n :: rest => notifEventsFor fns n ++ processNotifs fns rest

/-- The dispatcher-relevant mutable state of a `ConnectApi` instance:
the async-response correlator map `_asyncFns` and the per-resource
subscription map `_notifyFns`. -/
structure DispatchState where
  asyncFns : FnMap
  notifyFns : FnMap
deriving DecidableEq, Repr

/-- Method `ConnectApi.notify(data)` (connectApi.ts lines 168–228) as a pure
function from the dispatch state and the (possibly null) batch to the new
state and the ordered trace of side effects.  The only state `notify`
writes is `_asyncFns` (entry deletion on matched async responses). -/
def notify (st : DispatchState) (data : Option NotificationObject) : DispatchState × List Event :=
  match data with
  | none => (st, [])
  | some d =>
    let e1 := processNotifs st.notifyFns (optList d.notifications)
    let e2 := (optList d.registrations).map
      (fun device => Event.registrationEvent (DeviceEventAdapter.map device))
    let e3 := (optList d.regUpdates).map
      (fun device => Event.reregistrationEvent (DeviceEventAdapter.map device))
    let e4 := (optList d.deRegistrations).map Event.deregistrationEvent
    let e5 := (optList d.registrationsExpired).map Event.expiredEvent
    let p := processAsync st.asyncFns (optList d.asyncResponses)
    ({ st with asyncFns := p.1 }, e1 ++ e2 ++ e3 ++ e4 ++ e5 ++ p.2)

/-! ### Per-resource subscription registry (`addResourceSubscription`) -/

/-- Method `ConnectApi.normalizePath` (connectApi.ts lines 132–138): strip one
leading slash. -/
def normalizePath (path : String) : String :=
  if path.take 1 = "/" then path.drop 1 else path

/-- The `_notifyFns` registration performed by
`ConnectApi.addResourceSubscription(deviceId, resourcePath, notifyFn, ...)`
(connectApi.ts lines 1279–1298) once the remote subscription PUT succeeds
and a `notifyFn` was supplied: store the callback under
`deviceId + "/" + normalizePath(resourcePath)`. -/
def addResourceSubscription (fns : FnMap) (deviceId resourcePath : String) (cb : Nat) : FnMap :=
  insertA fns (deviceId ++ "/" ++ normalizePath resourcePath) cb

/-! ### Webhook registry (`getWebhook`, `deleteWebhook`)

Both methods wrap a single transport call in `asyncStyle` (not under
`src/`; per the spec it only adapts the continuation's `done(error, value)`
to the caller's promise or callback).  They are therefore embedded as pure
functions from the transport reply to the settlement outcome. -/

/-- The raw webhook record returned by `v2NotificationCallbackGet`. -/
structure RawWebhook where
  url : String
  headers : List (String × String) := []
deriving DecidableEq, Repr

/-- The domain webhook model. -/
structure Webhook where
  url : String
  headers : List (String × String) := []
deriving DecidableEq, Repr

namespace WebhookAdapter

/-- Modelled from the spec: `WebhookAdapter.map`
(`connect/models/webhookAdapter`) is not under `src/`; §4.3/§1 treat the
data mapping layer as a pure field-renaming transform. -/
def map (data : RawWebhook) : Webhook :=
  { url := data.url, headers := data.headers }

end WebhookAdapter

/-- How a promise/callback settles: `done(null, value)` or `done(error)`. -/
inductive Outcome (α : Type) where
  | ok (value : α)
  | err (e : SDKErrorModel)
deriving DecidableEq, Repr

/-- Method `ConnectApi.getWebhook` (connectApi.ts lines 381–397) as a function of
the `v2NotificationCallbackGet` transport reply: a remote 404 resolves to
`null` ("no webhook"), any other error propagates, success resolves to the
adapter-mapped webhook. -/
def getWebhookResult (reply : Except SDKErrorModel RawWebhook) : Outcome (Option Webhook) :=
  match reply with
  | Except.error e => if e.code = 404 then Outcome.ok none else Outcome.err e
  | Except.ok data => Outcome.ok (some (WebhookAdapter.map data))

/-- Method `ConnectApi.deleteWebhook` (connectApi.ts lines 489–495) as a function
of the `v2NotificationCallbackDelete` transport reply.  The continuation in
the source is `() => done(null, null)`: it takes no parameters, so the
transport error — 404 included — is dropped and the method always settles
successfully. -/
def deleteWebhookResult (reply : Except SDKErrorModel Unit) : Outcome Unit :=
  match reply with
  | Except.error _ => Outcome.ok ()
  | Except.ok _ => Outcome.ok ()

/-! ### Pull loop machine (`startNotifications`, `stopNotifications`)

The pull loop (connectApi.ts lines 267–348) is callback-driven: transport
completions and `setTimeout` timers run continuations that mutate the
instance.  It is embedded as a step function over an explicit machine
state, driven by a schedule of externally-timed occurrences (transport
replies, timer firings, user calls).  `interval` and `requestCallback` of
`NotificationOptions` are omitted: the former only times the next firing
and the latter adds a side callback, neither changes which transport calls
are issued or how state evolves.  The `await…` flags model one outstanding
call of each kind, which every schedule used below respects. -/

/-- A transport request issued by the coordinator. -/
inductive TransportCall where
  /-- Call `this._endpoints.notifications.v2NotificationPullGet(...)` — the poll fetch. -/
  | v2NotificationPullGet
  /-- Call `this._endpoints.notifications.v2NotificationPullDelete(...)` — delete pull channel. -/
  | v2NotificationPullDelete
  /-- Call `this._endpoints.webhooks.v2NotificationCallbackDelete(...)` — delete webhook. -/
  | v2NotificationCallbackDelete
deriving DecidableEq, Repr

/-- The mutable state of one `ConnectApi` instance relevant to the pull
loop, plus the transport-call and effect traces. -/
structure PollMachine where
  /-- Flag `this.handleNotifications`. -/
  handleNotifications : Bool := false
  /-- Truthiness of `this._pollRequest`. -/
  pollRequest : Bool := false
  /-- A `setTimeout(poll.bind(this), interval)` is scheduled and has not fired. -/
  timerSet : Bool := false
  /-- Whether `startNotifications` has issued its `deleteWebhook` call and awaits the reply. -/
  awaitCallbackDelete : Bool := false
  /-- Whether `stopNotifications` has issued `v2NotificationPullDelete` and awaits the reply. -/
  awaitPullDelete : Bool := false
  /-- Map `this._asyncFns`. -/
  asyncFns : FnMap := []
  /-- Map `this._notifyFns`. -/
  notifyFns : FnMap := []
  /-- Transport calls issued so far, in order. -/
  calls : List TransportCall := []
  /-- Observable effects so far, in order. -/
  events : List Event := []
deriving DecidableEq, Repr

/-- The machine of a freshly constructed `ConnectApi`. -/
def initMachine : PollMachine := {}

/-- One externally-timed occurrence driving the machine. -/
inductive Cmd where
  /-- The user calls `startNotifications` (lines 267–302): it synchronously
  calls `this.deleteWebhook(...)`, which issues `v2NotificationCallbackDelete`. -/
  | startNotifications
  /-- The transport completes that `v2NotificationCallbackDelete`; the
  continuation runs `poll.call(this); this.handleNotifications = true;
  done(null, null)`. -/
  | callbackDeleteReply
  /-- The transport completes an outstanding `v2NotificationPullGet`; the
  poll continuation (lines 278–292) runs with `(error, data)`. -/
  | pullReply (error : Bool) (data : Option NotificationObject)
  /-- The user calls `stopNotifications` (lines 335–348): it issues
  `v2NotificationPullDelete`. -/
  | stopNotifications
  /-- The transport completes that `v2NotificationPullDelete`; the
  continuation aborts and clears `_pollRequest`, clears
  `handleNotifications`, and calls `done(null, null)`. -/
  | pullDeleteReply
  /-- A scheduled `setTimeout(poll.bind(this), interval)` fires: `poll()`
  issues a fresh `v2NotificationPullGet` into `this._pollRequest`. -/
  | timerFire
deriving DecidableEq, Repr

/-- The state transition for one occurrence. -/
def step (m : PollMachine) : Cmd → PollMachine
  | Cmd.startNotifications =>
    { m with calls := m.calls ++ [TransportCall.v2NotificationCallbackDelete],
             awaitCallbackDelete := true }
  | Cmd.callbackDeleteReply =>
    if m.awaitCallbackDelete then
      { m with awaitCallbackDelete := false,
               pollRequest := true,
               calls := m.calls ++ [TransportCall.v2NotificationPullGet],
               handleNotifications := true,
               events := m.events ++ [Event.startDone none] }
    else m
  | Cmd.pullReply error data =>
    if m.handleNotifications then
      let p := notify { asyncFns := m.asyncFns, notifyFns := m.notifyFns } data
      let m := { m with asyncFns := p.1.asyncFns, events := m.events ++ p.2 }
      if error then { m with handleNotifications := false }
      else { m with timerSet := true }
    else m
  | Cmd.stopNotifications =>
    { m with calls := m.calls ++ [TransportCall.v2NotificationPullDelete],
             awaitPullDelete := true }
  | Cmd.pullDeleteReply =>
    if m.awaitPullDelete then
      { m with awaitPullDelete := false,
               pollRequest := false,
               handleNotifications := false,
               events := m.events ++ [Event.stopDone none] }
    else m
  | Cmd.timerFire =>
    if m.timerSet then
      { m with timerSet := false,
               pollRequest := true,
               calls := m.calls ++ [TransportCall.v2NotificationPullGet] }
    else m

/-- Run a schedule of occurrences from a machine state. -/
def run (m : PollMachine) (cs : List Cmd) : PollMachine :=
  cs.foldl step m

/-! ### Trace observations -/

/-- Whether an event is an invocation of the `_asyncFns` entry keyed `X`. -/
def isAsyncCallFor (X : String) : Event → Bool
  | Event.asyncFnCall id _ _ _ => id == X
  | _ => false

/-- The async-callback invocations for key `X` in a trace. -/
def asyncEvsFor (X : String) (evs : List Event) : List Event :=
  evs.filter (isAsyncCallFor X)

/-- The payload of a subscription-callback invocation for key `k`. -/
def subCallFor (k : String) : Event → Option (Nat × JSValue)
  | Event.notifyFnCall key cb body => if key == k then some (cb, body) else none
  | _ => none

/-- The subscription-callback invocations for key `k` in a trace. -/
def subCalls (k : String) (evs : List Event) : List (Nat × JSValue) :=
  evs.filterMap (subCallFor k)

/-- The payload of a generic `notification` emission. -/
def notifEmitOf : Event → Option (String × String × JSValue)
  | Event.notificationEvent id path payload => some (id, path, payload)
  | _ => none

/-- The generic `notification` emissions in a trace. -/
def notifEmits (evs : List Event) : List (String × String × JSValue) :=
  evs.filterMap notifEmitOf

/-- The fixed per-kind processing rank of `notify`'s sections. -/
def eventRank : Event → Nat
  | Event.notifyFnCall _ _ _ => 0
  | Event.notificationEvent _ _ _ => 0
  | Event.registrationEvent _ => 1
  | Event.reregistrationEvent _ => 2
  | Event.deregistrationEvent _ => 3
  | Event.expiredEvent _ => 4
  | Event.asyncFnCall _ _ _ _ => 5
  | Event.startDone _ => 6
  | Event.stopDone _ => 6

/-! ### Map lemmas -/

theorem lookupA_eraseA_self (l : FnMap) (k : String) : lookupA (eraseA l k) k = none := by
  induction l with
  | nil => rfl
  | cons p rest ih =>
    obtain ⟨a, v⟩ := p
    by_cases h : a = k
    · simpa [eraseA, h] using ih
    · simpa [eraseA, lookupA, h] using ih

theorem lookupA_eraseA_ne (l : FnMap) (k key : String) (h : k ≠ key) :
    lookupA (eraseA l k) key = lookupA l key := by
  induction l with
  | nil => rfl
  | cons p rest ih =>
    obtain ⟨a, v⟩ := p
    by_cases ha : a = k
    · subst ha
      simpa [eraseA, lookupA, h] using ih
    · by_cases hk : a = key <;> simp [eraseA, lookupA, ha, hk, ih, Ne.symm h]

/-! ### `processAsync` lemmas -/

theorem isAsyncCallFor_asyncEventFor (X : String) (cb : Nat) (r : AsyncResponse) :
    isAsyncCallFor X (asyncEventFor cb r) = (r.id == X) := by
  unfold asyncEventFor
  split <;> rfl

/-- The invocations for key `X` produced by one async-responses pass: the
first response with id `X` fires the registered callback (if any), and
nothing else does. -/
theorem asyncEvsFor_processAsync (rs : List AsyncResponse) (fns : FnMap) (X : String) :
    asyncEvsFor X (processAsync fns rs).2 =
      (match lookupA fns X, rs.find? (fun r => r.id == X) with
       | some cb, some r => [asyncEventFor cb r]
       | _, _ => []) := by
  induction rs generalizing fns with
  | nil =>
    cases h : lookupA fns X <;> simp [processAsync, asyncEvsFor, h]
  | cons r rest ih =>
    cases hid : (r.id == X) with
    | true =>
      have hX : r.id = X := by simpa using hid
      cases hl : lookupA fns r.id with
      | some cb =>
        have hup : asyncEvsFor X (processAsync (eraseA fns r.id) rest).2 = [] := by
          rw [ih]
          rw [hX, lookupA_eraseA_self]
        simp only [processAsync, hl, asyncEvsFor, List.filter_cons,
          isAsyncCallFor_asyncEventFor, hid]
        simp only [asyncEvsFor] at hup
        simp [hup, List.find?, hid, hX ▸ hl]
      | none =>
        simp only [processAsync, hl]
        rw [ih]
        rw [List.find?]
        simp only [hid]
        rw [hX] at hl
        simp [hl]
    | false =>
      have hne : r.id ≠ X := by simpa using hid
      cases hl : lookupA fns r.id with
      | some cb =>
        have hkeep : lookupA (eraseA fns r.id) X = lookupA fns X :=
          lookupA_eraseA_ne fns r.id X hne
        simp only [processAsync, hl, asyncEvsFor, List.filter_cons,
          isAsyncCallFor_asyncEventFor, hid]
        have := ih (eraseA fns r.id)
        simp only [asyncEvsFor] at this
        rw [this, hkeep, List.find?]
        simp [hid]
      | none =>
        simp only [processAsync, hl]
        rw [ih, List.find?]
        simp [hid]

/-- The correlator entry for `X` after one async-responses pass: removed
exactly when it existed and some response carried id `X`. -/
theorem lookupA_processAsync (rs : List AsyncResponse) (fns : FnMap) (X : String) :
    lookupA (processAsync fns rs).1 X =
      (if (lookupA fns X).isSome && rs.any (fun r => r.id == X) then none
       else lookupA fns X) := by
  induction rs generalizing fns with
  | nil => simp [processAsync]
  | cons r rest ih =>
    cases hid : (r.id == X) with
    | true =>
      have hX : r.id = X := by simpa using hid
      cases hl : lookupA fns r.id with
      | some cb =>
        simp only [processAsync, hl]
        rw [ih, hX, lookupA_eraseA_self]
        rw [hX] at hl
        simp [hl, List.any_cons, hid]
      | none =>
        simp only [processAsync, hl]
        rw [ih]
        rw [hX] at hl
        simp [hl]
    | false =>
      have hne : r.id ≠ X := by simpa using hid
      cases hl : lookupA fns r.id with
      | some cb =>
        simp only [processAsync, hl]
        rw [ih, lookupA_eraseA_ne fns r.id X hne]
        simp [List.any_cons, hid]
      | none =>
        simp only [processAsync, hl]
        rw [ih]
        simp [List.any_cons, hid]

/-- A batch whose async responses all miss the correlator map changes
nothing and fires nothing. -/
theorem processAsync_unmatched (rs : List AsyncResponse) (fns : FnMap)
    (h : ∀ r ∈ rs, lookupA fns r.id = none) : processAsync fns rs = (fns, []) := by
  induction rs with
  | nil => rfl
  | cons r rest ih =>
    have hr : lookupA fns r.id = none := h r (List.mem_cons_self r rest)
    simp only [processAsync, hr]
    exact ih (fun r hm => h r (List.mem_cons_of_mem _ hm))

/-! ### Which observations each section of `notify` contributes -/

theorem asyncEvsFor_append (X : String) (l₁ l₂ : List Event) :
    asyncEvsFor X (l₁ ++ l₂) = asyncEvsFor X l₁ ++ asyncEvsFor X l₂ :=
  List.filter_append ..

theorem subCalls_append (k : String) (l₁ l₂ : List Event) :
    subCalls k (l₁ ++ l₂) = subCalls k l₁ ++ subCalls k l₂ :=
  List.filterMap_append ..

theorem notifEmits_append (l₁ l₂ : List Event) :
    notifEmits (l₁ ++ l₂) = notifEmits l₁ ++ notifEmits l₂ :=
  List.filterMap_append ..

theorem asyncEvsFor_processNotifs (X : String) (ns : List DeviceNotification) (fns : FnMap) :
    asyncEvsFor X (processNotifs fns ns) = [] := by
  induction ns with
  | nil => rfl
  | cons n rest ih =>
    rw [processNotifs, asyncEvsFor_append, ih, notifEventsFor]
    cases lookupA fns (n.ep ++ n.path) <;> simp [asyncEvsFor, isAsyncCallFor]

theorem asyncEvsFor_map_reg (X : String) (l : List RawDeviceEvent) :
    asyncEvsFor X (l.map (fun device => Event.registrationEvent (DeviceEventAdapter.map device))) = [] := by
  induction l with
  | nil => rfl
  | cons a rest ih => simp [asyncEvsFor, isAsyncCallFor, ih]

theorem asyncEvsFor_map_rereg (X : String) (l : List RawDeviceEvent) :
    asyncEvsFor X (l.map (fun device => Event.reregistrationEvent (DeviceEventAdapter.map device))) = [] := by
  induction l with
  | nil => rfl
  | cons a rest ih => simp [asyncEvsFor, isAsyncCallFor, ih]

theorem asyncEvsFor_map_dereg (X : String) (l : List String) :
    asyncEvsFor X (l.map Event.deregistrationEvent) = [] := by
  induction l with
  | nil => rfl
  | cons a rest ih => simp [asyncEvsFor, isAsyncCallFor, ih]

theorem asyncEvsFor_map_expired (X : String) (l : List String) :
    asyncEvsFor X (l.map Event.expiredEvent) = [] := by
  induction l with
  | nil => rfl
  | cons a rest ih => simp [asyncEvsFor, isAsyncCallFor, ih]

/-- The async-callback invocations of a full `notify` dispatch are exactly
those of its async-responses pass, and the state after the dispatch carries
that pass's map. -/
theorem notify_async_parts (st : DispatchState) (d : NotificationObject) (X : String) :
    (notify st (some d)).1 =
      { st with asyncFns := (processAsync st.asyncFns (optList d.asyncResponses)).1 }
    ∧ asyncEvsFor X (notify st (some d)).2 =
      asyncEvsFor X (processAsync st.asyncFns (optList d.asyncResponses)).2 := by
  constructor
  · rfl
  · show asyncEvsFor X (_ ++ _ ++ _ ++ _ ++ _ ++ _) = _
    rw [asyncEvsFor_append, asyncEvsFor_append, asyncEvsFor_append, asyncEvsFor_append,
      asyncEvsFor_append, asyncEvsFor_processNotifs, asyncEvsFor_map_reg,
      asyncEvsFor_map_rereg, asyncEvsFor_map_dereg, asyncEvsFor_map_expired]
    rfl

theorem subCalls_asyncEventFor (k : String) (cb : Nat) (r : AsyncResponse) :
    subCallFor k (asyncEventFor cb r) = none := by
  unfold asyncEventFor
  split <;> rfl

theorem subCalls_processAsync (k : String) (rs : List AsyncResponse) (fns : FnMap) :
    subCalls k (processAsync fns rs).2 = [] := by
  induction rs generalizing fns with
  | nil => rfl
  | cons r rest ih =>
    cases hl : lookupA fns r.id with
    | some cb =>
      simp only [processAsync, hl]
      simpa [subCalls, List.filterMap_cons, subCalls_asyncEventFor] using ih (eraseA fns r.id)
    | none =>
      simp only [processAsync, hl]
      exact ih fns

theorem subCalls_map_reg (k : String) (l : List RawDeviceEvent) :
    subCalls k (l.map (fun device => Event.registrationEvent (DeviceEventAdapter.map device))) = [] := by
  induction l with
  | nil => rfl
  | cons a rest ih => simp [subCalls, List.filterMap_cons, subCallFor, ih]

theorem subCalls_map_rereg (k : String) (l : List RawDeviceEvent) :
    subCalls k (l.map (fun device => Event.reregistrationEvent (DeviceEventAdapter.map device))) = [] := by
  induction l with
  | nil => rfl
  | cons a rest ih => simp [subCalls, List.filterMap_cons, subCallFor, ih]

theorem subCalls_map_dereg (k : String) (l : List String) :
    subCalls k (l.map Event.deregistrationEvent) = [] := by
  induction l with
  | nil => rfl
  | cons a rest ih => simp [subCalls, List.filterMap_cons, subCallFor, ih]

theorem subCalls_map_expired (k : String) (l : List String) :
    subCalls k (l.map Event.expiredEvent) = [] := by
  induction l with
  | nil => rfl
  | cons a rest ih => simp [subCalls, List.filterMap_cons, subCallFor, ih]

/-- The per-resource callback invocations of a full `notify` dispatch are
exactly those of its resource-notifications pass. -/
theorem notify_subCalls (st : DispatchState) (d : NotificationObject) (k : String) :
    subCalls k (notify st (some d)).2 =
      subCalls k (processNotifs st.notifyFns (optList d.notifications)) := by
  show subCalls k (_ ++ _ ++ _ ++ _ ++ _ ++ _) = _
  rw [subCalls_append, subCalls_append, subCalls_append, subCalls_append, subCalls_append,
    subCalls_map_reg, subCalls_map_rereg, subCalls_map_dereg, subCalls_map_expired,
    subCalls_processAsync]
  simp

theorem notifEmits_asyncEventFor (cb : Nat) (r : AsyncResponse) :
    notifEmitOf (asyncEventFor cb r) = none := by
  unfold asyncEventFor
  split <;> rfl

theorem notifEmits_processAsync (rs : List AsyncResponse) (fns : FnMap) :
    notifEmits (processAsync fns rs).2 = [] := by
  induction rs generalizing fns with
  | nil => rfl
  | cons r rest ih =>
    cases hl : lookupA fns r.id with
    | some cb =>
      simp only [processAsync, hl]
      simpa [notifEmits, List.filterMap_cons, notifEmits_asyncEventFor] using ih (eraseA fns r.id)
    | none =>
      simp only [processAsync, hl]
      exact ih fns

theorem notifEmits_map_reg (l : List RawDeviceEvent) :
    notifEmits (l.map (fun device => Event.registrationEvent (DeviceEventAdapter.map device))) = [] := by
  induction l with
  | nil => rfl
  | cons a rest ih => simp [notifEmits, List.filterMap_cons, notifEmitOf, ih]

theorem notifEmits_map_rereg (l : List RawDeviceEvent) :
    notifEmits (l.map (fun device => Event.reregistrationEvent (DeviceEventAdapter.map device))) = [] := by
  induction l with
  | nil => rfl
  | cons a rest ih => simp [notifEmits, List.filterMap_cons, notifEmitOf, ih]

theorem notifEmits_map_dereg (l : List String) :
    notifEmits (l.map Event.deregistrationEvent) = [] := by
  induction l with
  | nil => rfl
  | cons a rest ih => simp [notifEmits, List.filterMap_cons, notifEmitOf, ih]

theorem notifEmits_map_expired (l : List String) :
    notifEmits (l.map Event.expiredEvent) = [] := by
  induction l with
  | nil => rfl
  | cons a rest ih => simp [notifEmits, List.filterMap_cons, notifEmitOf, ih]

/-- The generic `notification` emissions of a full `notify` dispatch are
exactly those of its resource-notifications pass. -/
theorem notify_notifEmits (st : DispatchState) (d : NotificationObject) :
    notifEmits (notify st (some d)).2 =
      notifEmits (processNotifs st.notifyFns (optList d.notifications)) := by
  show notifEmits (_ ++ _ ++ _ ++ _ ++ _ ++ _) = _
  rw [notifEmits_append, notifEmits_append, notifEmits_append, notifEmits_append,
    notifEmits_append, notifEmits_map_reg, notifEmits_map_rereg, notifEmits_map_dereg,
    notifEmits_map_expired, notifEmits_processAsync]
  simp

/-! ### `processNotifs` lemmas -/

/-- The per-resource callback registered under `k` fires once, with the
decoded body, for exactly the notifications whose `ep ++ path` equals `k`,
in batch order. -/
theorem subCalls_processNotifs (ns : List DeviceNotification) (fns : FnMap) (k : String)
    (cb : Nat) (h : lookupA fns k = some cb) :
    subCalls k (processNotifs fns ns) =
      (ns.filter (fun n => n.ep ++ n.path == k)).map
        (fun n => (cb, bodyOf n.payload n.ct)) := by
  induction ns with
  | nil => rfl
  | cons n rest ih =>
    rw [processNotifs, subCalls_append, ih, List.filter_cons]
    by_cases hk : n.ep ++ n.path = k
    · rw [notifEventsFor, hk, h]
      simp [subCalls, List.filterMap_cons, subCallFor, hk]
    · have hbk : (n.ep ++ n.path == k) = false := by simpa using hk
      rw [notifEventsFor]
      cases lookupA fns (n.ep ++ n.path) <;>
        simp [subCalls, List.filterMap_cons, subCallFor, hbk]

/-- When no callback is registered under `k`, no invocation for `k` occurs. -/
theorem subCalls_processNotifs_none (ns : List DeviceNotification) (fns : FnMap) (k : String)
    (h : lookupA fns k = none) :
    subCalls k (processNotifs fns ns) = [] := by
  induction ns with
  | nil => rfl
  | cons n rest ih =>
    rw [processNotifs, subCalls_append, ih, notifEventsFor]
    by_cases hk : n.ep ++ n.path = k
    · rw [hk, h]
      simp [subCalls, List.filterMap_cons, subCallFor]
    · have hbk : (n.ep ++ n.path == k) = false := by simpa using hk
      cases lookupA fns (n.ep ++ n.path) <;>
        simp [subCalls, List.filterMap_cons, subCallFor, hbk]

/-- Every notification of the batch produces its generic `notification`
emission, in batch order, with the decoded body. -/
theorem notifEmits_processNotifs (ns : List DeviceNotification) (fns : FnMap) :
    notifEmits (processNotifs fns ns) =
      ns.map (fun n => (n.ep, n.path, bodyOf n.payload n.ct)) := by
  induction ns with
  | nil => rfl
  | cons n rest ih =>
    rw [processNotifs, notifEmits_append, ih, notifEventsFor]
    cases lookupA fns (n.ep ++ n.path) <;>
      simp [notifEmits, List.filterMap_cons, notifEmitOf]

/-! ### Section ranks and ordering -/

theorem eventRank_asyncEventFor (cb : Nat) (r : AsyncResponse) :
    eventRank (asyncEventFor cb r) = 5 := by
  unfold asyncEventFor
  split <;> rfl

theorem eventRank_processNotifs (ns : List DeviceNotification) (fns : FnMap) :
    ∀ e ∈ processNotifs fns ns, eventRank e = 0 := by
  induction ns with
  | nil => intro e he; simp [processNotifs] at he
  | cons n rest ih =>
    intro e he
    rw [processNotifs] at he
    rcases List.mem_append.mp he with h | h
    · rw [notifEventsFor] at h
      rcases List.mem_append.mp h with h | h
      · cases hl : lookupA fns (n.ep ++ n.path) with
        | none => rw [hl] at h; simp at h
        | some cb => rw [hl] at h; simp at h; subst h; rfl
      · simp at h; subst h; rfl
    · exact ih e h

theorem eventRank_processAsync (rs : List AsyncResponse) (fns : FnMap) :
    ∀ e ∈ (processAsync fns rs).2, eventRank e = 5 := by
  induction rs generalizing fns with
  | nil => intro e he; simp [processAsync] at he
  | cons r rest ih =>
    intro e he
    cases hl : lookupA fns r.id with
    | some cb =>
      rw [processAsync] at he
      rw [hl] at he
      rcases List.mem_cons.mp he with h | h
      · subst h; exact eventRank_asyncEventFor cb r
      · exact ih (eraseA fns r.id) e h
    | none =>
      rw [processAsync] at he
      rw [hl] at he
      exact ih fns e he

theorem eventRank_map_reg (l : List RawDeviceEvent) :
    ∀ e ∈ l.map (fun device => Event.registrationEvent (DeviceEventAdapter.map device)),
      eventRank e = 1 := by
  intro e he
  rcases List.mem_map.mp he with ⟨a, _, rfl⟩
  rfl

theorem eventRank_map_rereg (l : List RawDeviceEvent) :
    ∀ e ∈ l.map (fun device => Event.reregistrationEvent (DeviceEventAdapter.map device)),
      eventRank e = 2 := by
  intro e he
  rcases List.mem_map.mp he with ⟨a, _, rfl⟩
  rfl

theorem eventRank_map_dereg (l : List String) :
    ∀ e ∈ l.map Event.deregistrationEvent, eventRank e = 3 := by
  intro e he
  rcases List.mem_map.mp he with ⟨a, _, rfl⟩
  rfl

theorem eventRank_map_expired (l : List String) :
    ∀ e ∈ l.map Event.expiredEvent, eventRank e = 4 := by
  intro e he
  rcases List.mem_map.mp he with ⟨a, _, rfl⟩
  rfl

theorem pairwise_rank_const {l : List Event} {c : Nat} (h : ∀ e ∈ l, eventRank e = c) :
    l.Pairwise (fun a b => eventRank a ≤ eventRank b) := by
  induction l with
  | nil => exact List.Pairwise.nil
  | cons a rest ih =>
    refine List.Pairwise.cons (fun b hb => ?_) (ih (fun e he => h e (List.mem_cons_of_mem _ he)))
    rw [h a (List.mem_cons_self a rest), h b (List.mem_cons_of_mem _ hb)]

theorem pairwise_rank_glue {A B : List Event} {c : Nat}
    (hA : ∀ e ∈ A, eventRank e ≤ c) (hB : ∀ e ∈ B, c ≤ eventRank e)
    (pA : A.Pairwise (fun a b => eventRank a ≤ eventRank b))
    (pB : B.Pairwise (fun a b => eventRank a ≤ eventRank b)) :
    (A ++ B).Pairwise (fun a b => eventRank a ≤ eventRank b) :=
  List.pairwise_append.mpr ⟨pA, pB, fun a ha b hb => le_trans (hA a ha) (hB b hb)⟩

theorem rank_le_of_split {l : List Event}
    (hp : l.Pairwise (fun a b => eventRank a ≤ eventRank b))
    (xs ys zs : List Event) (a b : Event) (h : l = xs ++ a :: (ys ++ b :: zs)) :
    eventRank a ≤ eventRank b := by
  subst h
  have h2 := (List.pairwise_append.mp hp).2.1
  exact List.rel_of_pairwise_cons h2
    (List.mem_append_right ys (List.mem_cons_self b zs))

theorem pairwise_rank_six {A B C D E F : List Event}
    (hA : ∀ e ∈ A, eventRank e = 0) (hB : ∀ e ∈ B, eventRank e = 1)
    (hC : ∀ e ∈ C, eventRank e = 2) (hD : ∀ e ∈ D, eventRank e = 3)
    (hE : ∀ e ∈ E, eventRank e = 4) (hF : ∀ e ∈ F, eventRank e = 5) :
    (A ++ B ++ C ++ D ++ E ++ F).Pairwise (fun a b => eventRank a ≤ eventRank b) := by
  have gAB : (A ++ B).Pairwise (fun a b => eventRank a ≤ eventRank b) :=
    pairwise_rank_glue (c := 1) (fun e he => by rw [hA e he]; omega)
      (fun e he => le_of_eq (hB e he).symm)
      (pairwise_rank_const hA) (pairwise_rank_const hB)
  have bAB : ∀ e ∈ A ++ B, eventRank e ≤ 1 := by
    intro e he
    rcases List.mem_append.mp he with h | h
    · rw [hA e h]; omega
    · rw [hB e h]
  have gABC : (A ++ B ++ C).Pairwise (fun a b => eventRank a ≤ eventRank b) :=
    pairwise_rank_glue (c := 2) (fun e he => le_trans (bAB e he) (by omega))
      (fun e he => le_of_eq (hC e he).symm) gAB (pairwise_rank_const hC)
  have bABC : ∀ e ∈ A ++ B ++ C, eventRank e ≤ 2 := by
    intro e he
    rcases List.mem_append.mp he with h | h
    · exact le_trans (bAB e h) (by omega)
    · rw [hC e h]
  have gABCD : (A ++ B ++ C ++ D).Pairwise (fun a b => eventRank a ≤ eventRank b) :=
    pairwise_rank_glue (c := 3) (fun e he => le_trans (bABC e he) (by omega))
      (fun e he => le_of_eq (hD e he).symm) gABC (pairwise_rank_const hD)
  have bABCD : ∀ e ∈ A ++ B ++ C ++ D, eventRank e ≤ 3 := by
    intro e he
    rcases List.mem_append.mp he with h | h
    · exact le_trans (bABC e h) (by omega)
    · rw [hD e h]
  have gABCDE : (A ++ B ++ C ++ D ++ E).Pairwise (fun a b => eventRank a ≤ eventRank b) :=
    pairwise_rank_glue (c := 4) (fun e he => le_trans (bABCD e he) (by omega))
      (fun e he => le_of_eq (hE e he).symm) gABCD (pairwise_rank_const hE)
  have bABCDE : ∀ e ∈ A ++ B ++ C ++ D ++ E, eventRank e ≤ 4 := by
    intro e he
    rcases List.mem_append.mp he with h | h
    · exact le_trans (bABCD e h) (by omega)
    · rw [hE e h]
  exact pairwise_rank_glue (c := 5) (fun e he => le_trans (bABCDE e he) (by omega))
    (fun e he => le_of_eq (hF e he).symm) gABCDE (pairwise_rank_const hF)

/-! ### Claim theorems -/

/-- C10: calling `notify` with a null (or undefined) batch is a no-op —
`if (!data) return;` fires before anything else, so it returns immediately
with no events, no callback invocations, and the dispatch state (pending
async map and subscription map) unchanged. -/
theorem notify_null_batch_noop (st : DispatchState) : notify st none = (st, []) := rfl

/-- C8: within a single `notify` dispatch the side effects occur in the
fixed section order — resource notifications (rank 0), registrations (1),
re-registrations (2), deregistrations (3), registration expirations (4),
async responses (5).  Stated as: the trace is sorted by section rank, and
for any two effects the earlier one has rank at most the later one's (so in
particular every deregistration effect precedes every expiration effect). -/
theorem notify_processing_order (st : DispatchState) (data : Option NotificationObject) :
    ((notify st data).2).Pairwise (fun a b => eventRank a ≤ eventRank b)
    ∧ ∀ (xs ys zs : List Event) (a b : Event),
        (notify st data).2 = xs ++ a :: (ys ++ b :: zs) → eventRank a ≤ eventRank b := by
  have hp : ((notify st data).2).Pairwise (fun a b => eventRank a ≤ eventRank b) := by
    cases data with
    | none => exact List.Pairwise.nil
    | some d =>
      exact pairwise_rank_six
        (eventRank_processNotifs (optList d.notifications) st.notifyFns)
        (eventRank_map_reg (optList d.registrations))
        (eventRank_map_rereg (optList d.regUpdates))
        (eventRank_map_dereg (optList d.deRegistrations))
        (eventRank_map_expired (optList d.registrationsExpired))
        (eventRank_processAsync (optList d.asyncResponses) st.asyncFns)
  exact ⟨hp, fun xs ys zs a b h => rank_le_of_split hp xs ys zs a b h⟩

/-- Witness for C8: a batch holding one effect of each kind produces the
deregistration emission strictly before the expiration emission. -/
theorem notify_processing_order_witness :
    eventRank (Event.deregistrationEvent "d1") ≤ eventRank (Event.expiredEvent "d2") ∧
    (notify { asyncFns := [("a1", 5)], notifyFns := [("dev/3200", 9)] }
        (some { notifications := some [{ ep := "dev", path := "/3200" }],
                registrations := some [{ ep := "r1" }],
                regUpdates := some [{ ep := "r2" }],
                deRegistrations := some ["d1"],
                registrationsExpired := some ["d2"],
                asyncResponses := some [{ id := "a1", status := 200 }] })).2
      = [Event.notifyFnCall "dev/3200" 9 JSValue.null,
         Event.notificationEvent "dev" "/3200" JSValue.null,
         Event.registrationEvent { id := "r1" },
         Event.reregistrationEvent { id := "r2" },
         Event.deregistrationEvent "d1",
         Event.expiredEvent "d2",
         Event.asyncFnCall "a1" 5 none JSValue.null] := by
  constructor
  · exact (notify_processing_order { asyncFns := [("a1", 5)], notifyFns := [("dev/3200", 9)] }
      (some { notifications := some [{ ep := "dev", path := "/3200" }],
              registrations := some [{ ep := "r1" }],
              regUpdates := some [{ ep := "r2" }],
              deRegistrations := some ["d1"],
              registrationsExpired := some ["d2"],
              asyncResponses := some [{ id := "a1", status := 200 }] })).2
      [Event.notifyFnCall "dev/3200" 9 JSValue.null,
       Event.notificationEvent "dev" "/3200" JSValue.null,
       Event.registrationEvent { id := "r1" },
       Event.reregistrationEvent { id := "r2" }]
      [] [Event.asyncFnCall "a1" 5 none JSValue.null]
      (Event.deregistrationEvent "d1") (Event.expiredEvent "d2") (by decide)
  · decide

/-- C3: a matched async response with status ≥ 400 invokes the pending
callback with a constructed `SDKError` carrying
`response.error || response.status` as message and `response.status` as
code, and a null payload; otherwise with a null error and the decoded
payload, which is null when no payload is present. -/
theorem notify_async_response_args (st : DispatchState) (r : AsyncResponse) (cb : Nat)
    (h : lookupA st.asyncFns r.id = some cb) :
    (notify st (some { asyncResponses := some [r] })).2 =
      [if 400 ≤ r.status then
        Event.asyncFnCall r.id cb
          (some { message := errMessageOf r.error r.status, code := r.status }) JSValue.null
      else
        Event.asyncFnCall r.id cb none (bodyOf r.payload r.ct)]
    ∧ (r.payload = none → bodyOf r.payload r.ct = JSValue.null) := by
  constructor
  · show [] ++ [] ++ [] ++ [] ++ [] ++ (processAsync st.asyncFns [r]).2 = _
    simp only [processAsync, h, asyncEventFor, List.nil_append]
  · intro hp
    rw [hp]
    rfl

/-- Witness for C3: a pending entry for `"a1"`, a 200 response carrying
base64 `"NDI="` (the text `42`), invoked as `fn(null, 42)`; and a 404
response with an error text, invoked as `fn(error carrying the message and
status, null)`. -/
theorem notify_async_response_args_witness :
    (notify { asyncFns := [("a1", 7)], notifyFns := [] }
        (some { asyncResponses := some [{ id := "a1", status := 200, payload := some "NDI=" }] })).2
      = [Event.asyncFnCall "a1" 7 none (JSValue.num 42)]
    ∧ (notify { asyncFns := [("a1", 7)], notifyFns := [] }
        (some { asyncResponses := some [{ id := "a1", status := 404, error := some "not found" }] })).2
      = [Event.asyncFnCall "a1" 7
          (some { message := JSValue.str "not found", code := 404 }) JSValue.null] := by
  constructor
  · have h := (notify_async_response_args { asyncFns := [("a1", 7)], notifyFns := [] }
      { id := "a1", status := 200, payload := some "NDI=" } 7 (by decide)).1
    rw [h]
    decide
  · have h := (notify_async_response_args { asyncFns := [("a1", 7)], notifyFns := [] }
      { id := "a1", status := 404, error := some "not found" } 7 (by decide)).1
    rw [h]
    decide

theorem any_eq_isSome_find? {α : Type} (p : α → Bool) (l : List α) :
    l.any p = (l.find? p).isSome := by
  induction l with
  | nil => rfl
  | cons a l ih => cases hpa : p a <;> simp [List.any_cons, List.find?_cons, hpa, ih]

/-- C1: for a batch carrying async responses and any id `X` — if a pending
entry for `X` exists at dispatch time, the associated callback fires
exactly once (even if the batch repeats the id) and the entry is removed
from the map, so a later response for `X` finds nothing; if no entry for
`X` exists, no invocation for `X` occurs and the map still has no entry;
and a batch whose async responses all miss the map leaves the dispatch
state completely unchanged. -/
theorem notify_async_correlation (st : DispatchState) (d : NotificationObject)
    (rs : List AsyncResponse) (X : String) (cb : Nat)
    (hd : d.asyncResponses = some rs) :
    (lookupA st.asyncFns X = some cb →
      (asyncEvsFor X (notify st (some d)).2).length
          = (if rs.any (fun r => r.id == X) then 1 else 0)
      ∧ (∀ e ∈ asyncEvsFor X (notify st (some d)).2, ∃ r ∈ rs, e = asyncEventFor cb r)
      ∧ (rs.any (fun r => r.id == X) = true →
          lookupA (notify st (some d)).1.asyncFns X = none))
    ∧ (lookupA st.asyncFns X = none →
      asyncEvsFor X (notify st (some d)).2 = []
      ∧ lookupA (notify st (some d)).1.asyncFns X = none)
    ∧ ((∀ r ∈ rs, lookupA st.asyncFns r.id = none) →
      (notify st (some d)).1 = st) := by
  obtain ⟨hstate, hevs⟩ := notify_async_parts st d X
  have hrs : optList d.asyncResponses = rs := by rw [hd]; rfl
  rw [hrs] at hstate hevs
  refine ⟨?_, ?_, ?_⟩
  · intro h
    refine ⟨?_, ?_, ?_⟩
    · rw [hevs, asyncEvsFor_processAsync, h, any_eq_isSome_find?]
      cases hf : rs.find? (fun r => r.id == X) <;> simp [hf]
    · intro e he
      rw [hevs, asyncEvsFor_processAsync, h] at he
      cases hf : rs.find? (fun r => r.id == X) with
      | none => rw [hf] at he; simp at he
      | some r =>
        rw [hf] at he
        simp at he
        exact ⟨r, List.mem_of_find?_eq_some hf, he⟩
    · intro hany
      rw [hstate]
      show lookupA (processAsync st.asyncFns rs).1 X = none
      rw [lookupA_processAsync]
      simp [h, hany]
  · intro h
    constructor
    · rw [hevs, asyncEvsFor_processAsync, h]
    · rw [hstate]
      show lookupA (processAsync st.asyncFns rs).1 X = none
      rw [lookupA_processAsync]
      simp [h]
  · intro h
    rw [hstate, processAsync_unmatched rs st.asyncFns h]

/-- Witness for C1: with a pending entry for `"a1"` and a batch repeating
id `"a1"` twice, the callback fires exactly once and the entry is gone; a
response with unknown id `"zz"` fires nothing; a batch with only unknown
ids leaves the state unchanged. -/
theorem notify_async_correlation_witness :
    (asyncEvsFor "a1" (notify { asyncFns := [("a1", 5)], notifyFns := [] }
        (some { asyncResponses := some [{ id := "a1", status := 200 },
                                        { id := "a1", status := 200 }] })).2).length = 1
    ∧ lookupA (notify { asyncFns := [("a1", 5)], notifyFns := [] }
        (some { asyncResponses := some [{ id := "a1", status := 200 },
                                        { id := "a1", status := 200 }] })).1.asyncFns "a1" = none
    ∧ asyncEvsFor "zz" (notify { asyncFns := [("a1", 5)], notifyFns := [] }
        (some { asyncResponses := some [{ id := "zz", status := 200 }] })).2 = []
    ∧ (notify { asyncFns := [("a1", 5)], notifyFns := [] }
        (some { asyncResponses := some [{ id := "zz", status := 200 }] })).1
      = { asyncFns := [("a1", 5)], notifyFns := [] } := by
  have h1 := notify_async_correlation { asyncFns := [("a1", 5)], notifyFns := [] }
    { asyncResponses := some [{ id := "a1", status := 200 }, { id := "a1", status := 200 }] }
    [{ id := "a1", status := 200 }, { id := "a1", status := 200 }] "a1" 5 rfl
  have h2 := notify_async_correlation { asyncFns := [("a1", 5)], notifyFns := [] }
    { asyncResponses := some [{ id := "zz", status := 200 }] }
    [{ id := "zz", status := 200 }] "zz" 5 rfl
  refine ⟨?_, ?_, ?_, ?_⟩
  · rw [(h1.1 (by decide)).1]
    decide
  · exact (h1.1 (by decide)).2.2 (by decide)
  · exact (h2.2.1 (by decide)).1
  · exact h2.2.2 (by decide)

/-- C2: for a batch carrying resource notifications — a callback registered
in `_notifyFns` under key `k` (the dispatcher's exact-match lookup key,
`ep ++ path`) is invoked once per notification whose `ep ++ path` equals
`k`, in batch order, with the decoded payload; and every notification in
the batch, subscribed or not, produces the generic `notification` emission
carrying the device id, the resource path and the decoded payload. -/
theorem notify_resource_dispatch (st : DispatchState) (d : NotificationObject)
    (ns : List DeviceNotification) (hd : d.notifications = some ns) :
    (∀ (k : String) (cb : Nat), lookupA st.notifyFns k = some cb →
      subCalls k (notify st (some d)).2 =
        (ns.filter (fun n => n.ep ++ n.path == k)).map
          (fun n => (cb, bodyOf n.payload n.ct)))
    ∧ notifEmits (notify st (some d)).2 =
        ns.map (fun n => (n.ep, n.path, bodyOf n.payload n.ct)) := by
  have hns : optList d.notifications = ns := by rw [hd]; rfl
  constructor
  · intro k cb h
    rw [notify_subCalls, hns, subCalls_processNotifs ns st.notifyFns k cb h]
  · rw [notify_notifEmits, hns, notifEmits_processNotifs]

/-- Witness for C2: one subscribed notification — the registered callback
fires exactly once with the decoded payload (base64 `"NDI="`, i.e. 42), and
the generic `notification` event is emitted. -/
theorem notify_resource_dispatch_witness :
    subCalls "dev/3200" (notify { asyncFns := [], notifyFns := [("dev/3200", 9)] }
        (some { notifications := some [{ ep := "dev", path := "/3200", payload := some "NDI=" }] })).2
      = [(9, JSValue.num 42)]
    ∧ notifEmits (notify { asyncFns := [], notifyFns := [("dev/3200", 9)] }
        (some { notifications := some [{ ep := "dev", path := "/3200", payload := some "NDI=" }] })).2
      = [("dev", "/3200", JSValue.num 42)] := by
  have h := notify_resource_dispatch { asyncFns := [], notifyFns := [("dev/3200", 9)] }
    { notifications := some [{ ep := "dev", path := "/3200", payload := some "NDI=" }] }
    [{ ep := "dev", path := "/3200", payload := some "NDI=" }] rfl
  constructor
  · rw [h.1 "dev/3200" 9 (by decide)]
    decide
  · rw [h.2]
    decide

/-- C9: `addResourceSubscription(d, p, f)` stores `f` under
`d ++ "/" ++ normalizePath p` (one leading slash stripped from `p`) while
`notify` looks the callback up under `ep ++ path` with no separator; hence
with only that subscription registered, `f` fires for a notification
`{ep, path}` iff `ep ++ path = d ++ "/" ++ normalizePath p` — in
particular it fires when `ep = d` and `path = "/" ++ normalizePath p`, and
never when `ep = d` and `path = normalizePath p` (no leading slash). -/
theorem addResourceSubscription_notify_key (d p : String) (cb : Nat)
    (n : DeviceNotification) (afns : FnMap) :
    (subCalls (n.ep ++ n.path)
        (notify { asyncFns := afns, notifyFns := addResourceSubscription [] d p cb }
          (some { notifications := some [n] })).2 ≠ []
      ↔ n.ep ++ n.path = d ++ "/" ++ normalizePath p)
    ∧ (n.ep = d → n.path = "/" ++ normalizePath p →
        subCalls (n.ep ++ n.path)
          (notify { asyncFns := afns, notifyFns := addResourceSubscription [] d p cb }
            (some { notifications := some [n] })).2
          = [(cb, bodyOf n.payload n.ct)])
    ∧ (n.ep = d → n.path = normalizePath p →
        subCalls (n.ep ++ n.path)
          (notify { asyncFns := afns, notifyFns := addResourceSubscription [] d p cb }
            (some { notifications := some [n] })).2
          = []) := by
  have hcalls : subCalls (n.ep ++ n.path)
      (notify { asyncFns := afns, notifyFns := addResourceSubscription [] d p cb }
        (some { notifications := some [n] })).2
      = (if n.ep ++ n.path = d ++ "/" ++ normalizePath p
         then [(cb, bodyOf n.payload n.ct)] else []) := by
    rw [notify_subCalls]
    by_cases hk : n.ep ++ n.path = d ++ "/" ++ normalizePath p
    · have h : lookupA (addResourceSubscription [] d p cb) (n.ep ++ n.path) = some cb := by
        show (if d ++ "/" ++ normalizePath p = n.ep ++ n.path then some cb else none) = some cb
        rw [if_pos hk.symm]
      rw [show optList (some [n]) = [n] from rfl,
        subCalls_processNotifs [n] (addResourceSubscription [] d p cb) _ cb h]
      simp [hk]
    · have h : lookupA (addResourceSubscription [] d p cb) (n.ep ++ n.path) = none := by
        show (if d ++ "/" ++ normalizePath p = n.ep ++ n.path then some cb else none) = none
        rw [if_neg (Ne.symm hk)]
      rw [show optList (some [n]) = [n] from rfl,
        subCalls_processNotifs_none [n] (addResourceSubscription [] d p cb) _ h]
      simp [hk]
  refine ⟨?_, ?_, ?_⟩
  · rw [hcalls]
    by_cases hk : n.ep ++ n.path = d ++ "/" ++ normalizePath p <;> simp [hk]
  · intro h1 h2
    rw [hcalls, if_pos]
    rw [h1, h2, ← String.append_assoc]
  · intro h1 h2
    rw [hcalls, if_neg]
    intro hk
    rw [h1, h2] at hk
    have hlen := congrArg String.length hk
    rw [String.length_append, String.length_append, String.length_append,
      show ("/" : String).length = 1 from rfl] at hlen
    omega

/-- Witness for C9: a subscription added for `("dev", "3200/0/5500")` fires
for the notification `{ep := "dev", path := "/3200/0/5500"}` (leading
slash) and not for `{ep := "dev", path := "3200/0/5500"}` (none). -/
theorem addResourceSubscription_notify_key_witness :
    subCalls ("dev" ++ "/3200/0/5500")
      (notify { asyncFns := [],
                notifyFns := addResourceSubscription [] "dev" "3200/0/5500" 9 }
        (some { notifications := some [{ ep := "dev", path := "/3200/0/5500" }] })).2
      = [(9, JSValue.null)]
    ∧ subCalls ("dev" ++ "3200/0/5500")
      (notify { asyncFns := [],
                notifyFns := addResourceSubscription [] "dev" "3200/0/5500" 9 }
        (some { notifications := some [{ ep := "dev", path := "3200/0/5500" }] })).2
      = [] := by
  constructor
  · exact (addResourceSubscription_notify_key "dev" "3200/0/5500" 9
      { ep := "dev", path := "/3200/0/5500" } []).2.1 rfl (by decide)
  · exact (addResourceSubscription_notify_key "dev" "3200/0/5500" 9
      { ep := "dev", path := "3200/0/5500" } []).2.2 rfl (by decide)

/-- C7: `getWebhook` on a remote 404 resolves successfully to `null`
("no webhook"), any other transport error propagates to the caller, and a
success reply resolves to the adapter-mapped webhook value. -/
theorem getWebhook_not_found_null :
    (∀ e : SDKErrorModel, e.code = 404 →
      getWebhookResult (Except.error e) = Outcome.ok none)
    ∧ (∀ e : SDKErrorModel, e.code ≠ 404 →
      getWebhookResult (Except.error e) = Outcome.err e)
    ∧ (∀ data : RawWebhook,
      getWebhookResult (Except.ok data) = Outcome.ok (some (WebhookAdapter.map data))) := by
  refine ⟨?_, ?_, ?_⟩
  · intro e h
    show (if e.code = 404 then Outcome.ok none else Outcome.err e) = Outcome.ok none
    rw [if_pos h]
  · intro e h
    show (if e.code = 404 then Outcome.ok none else Outcome.err e) = Outcome.err e
    rw [if_neg h]
  · intro data
    rfl

/-- Witness for C7: a 404 reply gives `null`, a 500 reply propagates, a
success reply gives the mapped webhook. -/
theorem getWebhook_not_found_null_witness :
    getWebhookResult (Except.error { message := JSValue.str "Not found", code := 404 })
      = Outcome.ok none
    ∧ getWebhookResult (Except.error { message := JSValue.str "boom", code := 500 })
      = Outcome.err { message := JSValue.str "boom", code := 500 }
    ∧ getWebhookResult (Except.ok { url := "http://cb.example" })
      = Outcome.ok (some { url := "http://cb.example" }) :=
  ⟨getWebhook_not_found_null.1 { message := JSValue.str "Not found", code := 404 } rfl,
   getWebhook_not_found_null.2.1 { message := JSValue.str "boom", code := 500 } (by decide),
   getWebhook_not_found_null.2.2 { url := "http://cb.example" }⟩

/-- C5 evaluation: the continuation `deleteWebhook` installs on
`v2NotificationCallbackDelete` is `() => done(null, null)` — it takes no
parameters, so a remote 404 ("no webhook to delete") is dropped and the
method still settles successfully, contradicting both the claim and the
method's own doc comment ("If no webhook is registered, an exception (404)
will be raised"). -/
theorem deleteWebhook_swallows_404 :
    deleteWebhookResult (Except.error { message := JSValue.str "Not found", code := 404 })
      = Outcome.ok ()
    ∧ ∀ reply : Except SDKErrorModel Unit, deleteWebhookResult reply = Outcome.ok () := by
  refine ⟨rfl, ?_⟩
  intro reply
  cases reply <;> rfl

/-! ### C4 and C6: what `startNotifications` and `stopNotifications` issue -/

/-- C4 counterexample: running `startNotifications` to its first poll from
a fresh instance issues `v2NotificationCallbackDelete` (a webhook delete)
followed by the first `v2NotificationPullGet`; no
`v2NotificationPullDelete` ("delete pull channel") call occurs anywhere in
the trace, so the claimed delete-pull-channel call is never issued. -/
theorem startNotifications_no_pull_delete :
    (run initMachine [Cmd.startNotifications, Cmd.callbackDeleteReply]).calls
      = [TransportCall.v2NotificationCallbackDelete, TransportCall.v2NotificationPullGet]
    ∧ TransportCall.v2NotificationPullDelete ∉
        (run initMachine [Cmd.startNotifications, Cmd.callbackDeleteReply]).calls := by
  constructor
  · rfl
  · decide

/-- C4 amended: every call to `startNotifications` issues exactly one
unconditional delete-webhook (`v2NotificationCallbackDelete`) transport
call, before the first poll request is issued and before
`handleNotifications` is enabled; the poll request and the enabling happen
only once that delete completes. -/
theorem startNotifications_webhook_delete_first (m : PollMachine) :
    (step m Cmd.startNotifications).calls = m.calls ++ [TransportCall.v2NotificationCallbackDelete]
    ∧ (step m Cmd.startNotifications).handleNotifications = m.handleNotifications
    ∧ (run m [Cmd.startNotifications, Cmd.callbackDeleteReply]).calls
        = m.calls ++ [TransportCall.v2NotificationCallbackDelete, TransportCall.v2NotificationPullGet]
    ∧ (run m [Cmd.startNotifications, Cmd.callbackDeleteReply]).handleNotifications = true
    ∧ (run m [Cmd.startNotifications, Cmd.callbackDeleteReply]).events
        = m.events ++ [Event.startDone none] := by
  refine ⟨rfl, rfl, ?_, ?_, ?_⟩ <;> simp [run, step]

/-- The concrete schedule refuting C6's cancellation part: start pulling,
receive one poll reply (which schedules the next iteration), then complete
a full `stopNotifications`. -/
def stopSchedule : List Cmd :=
  [Cmd.startNotifications, Cmd.callbackDeleteReply, Cmd.pullReply false none,
   Cmd.stopNotifications, Cmd.pullDeleteReply]

/-- C6 counterexample: after `stopNotifications` completes (its
`stopDone` has fired), the `setTimeout` scheduled by the earlier poll reply
is still pending — `stopNotifications` only aborts `_pollRequest`, it never
clears the timer — so when it fires, `poll()` issues one more
`v2NotificationPullGet` fetch, contradicting "no further fetch request is
issued after stop completes". -/
theorem stopNotifications_timer_not_cancelled :
    (run initMachine stopSchedule).events = [Event.startDone none, Event.stopDone none]
    ∧ (run initMachine stopSchedule).calls
      = [TransportCall.v2NotificationCallbackDelete, TransportCall.v2NotificationPullGet,
         TransportCall.v2NotificationPullDelete]
    ∧ (run initMachine stopSchedule).timerSet = true
    ∧ (step (run initMachine stopSchedule) Cmd.timerFire).calls
      = (run initMachine stopSchedule).calls ++ [TransportCall.v2NotificationPullGet] := by
  refine ⟨rfl, rfl, rfl, rfl⟩

/-- C6 amended: a completed `stopNotifications` issues exactly one
`v2NotificationPullDelete` call, disables notification handling, reports no
error, and is idempotent (twice from Idle: no error, one delete call each
time); but it leaves a scheduled timer in place — a pending next iteration
still fires one more fetch — while any poll reply arriving once handling is
disabled is ignored entirely (no events, no state change, no
rescheduling). -/
theorem stopNotifications_behavior (m : PollMachine) :
    ((run m [Cmd.stopNotifications, Cmd.pullDeleteReply]).calls
        = m.calls ++ [TransportCall.v2NotificationPullDelete]
      ∧ (run m [Cmd.stopNotifications, Cmd.pullDeleteReply]).handleNotifications = false
      ∧ (run m [Cmd.stopNotifications, Cmd.pullDeleteReply]).events
        = m.events ++ [Event.stopDone none]
      ∧ (run m [Cmd.stopNotifications, Cmd.pullDeleteReply]).timerSet = m.timerSet)
    ∧ (m.handleNotifications = false →
        ∀ (e : Bool) (dt : Option NotificationObject), step m (Cmd.pullReply e dt) = m)
    ∧ (m.timerSet = true →
        (step m Cmd.timerFire).calls = m.calls ++ [TransportCall.v2NotificationPullGet])
    ∧ ((run initMachine [Cmd.stopNotifications, Cmd.pullDeleteReply,
          Cmd.stopNotifications, Cmd.pullDeleteReply]).calls
        = [TransportCall.v2NotificationPullDelete, TransportCall.v2NotificationPullDelete]
      ∧ (run initMachine [Cmd.stopNotifications, Cmd.pullDeleteReply,
          Cmd.stopNotifications, Cmd.pullDeleteReply]).events
        = [Event.stopDone none, Event.stopDone none]) := by
  refine ⟨⟨?_, ?_, ?_, ?_⟩, ?_, ?_, rfl, rfl⟩
  · simp [run, step]
  · simp [run, step]
  · simp [run, step]
  · simp [run, step]
  · intro h e dt
    simp [step, h]
  · intro h
    simp [step, h]

/-- Witness for the amended C6: a machine with a pending timer issues one
fetch when it fires, and a machine with handling disabled ignores a poll
reply. -/
theorem stopNotifications_behavior_witness :
    (step ({ timerSet := true } : PollMachine) Cmd.timerFire).calls
      = [TransportCall.v2NotificationPullGet]
    ∧ step ({} : PollMachine) (Cmd.pullReply false none) = {} := by
  constructor
  · have h := (stopNotifications_behavior { timerSet := true }).2.2.1 rfl
    simpa using h
  · exact (stopNotifications_behavior {}).2.1 rfl false none
